import Mathlib

/-!
Verification development for the mirumoji transcription/LLM-session core.

The Python source is shallowly embedded: each method of
`processing/gpt_wrapper.py` (class `GptModel`), the `/gpt/breakdown`
route of `routers/gpt_router.py`, the ffmpeg wrapper of
`processing/audio_processing.py` (class `AudioTools`) and the SRT
serializer of `utils/srt_utils.py` becomes a pure Lean function.
External effects (the LLM provider, the subprocess) are passed in as
explicit outcome parameters; machine floats are modelled as exact
rationals; Python exceptions become explicit error results paired with
the object state at the moment the exception escapes (Python mutates
`self` in place, so the state reached before a raise survives it).
-/

deriving instance DecidableEq for Except

namespace GptWrapper

/-- Chat message, mirroring the `{"role": ..., "content": ...}` dicts of
`gpt_wrapper.py`. -/
structure Msg where
  role : String
  content : String
deriving DecidableEq, Repr

/-- Result of a successful provider call after `GptModel.process_output`:
the parsed usage numbers, the classified finish reason (always one of the
codes 0..4, hence `Fin 5`) and the price computed by `response_price`. -/
structure FResult where
  output : String
  prompt_tokens : ℕ
  output_tokens : ℕ
  total_tokens : ℕ
  finish_reason : Fin 5
  price : ℚ
deriving DecidableEq, Repr

/-- The dict archived by `GptModel.new_session` into `sessions_info`. -/
structure SessionInfo where
  total_tokens : Option ℕ
  total_price : ℚ
  inputs : List String
  outputs : List String
  requests_info : List FResult
  input_tokens : Option ℕ
  output_tokens : Option ℕ
  request_count : ℕ
deriving DecidableEq, Repr

/-- The mutable attributes of a `GptModel` instance (the ConversationState
of the spec).  Token counters start as Python `None`, hence `Option ℕ`. -/
structure GptState where
  model : String
  sys_msg : Msg
  window_token_limit : ℕ
  messages : List Msg
  outputs : List String
  inputs : List String
  total_price : ℚ
  total_tokens : Option ℕ
  input_tokens : Option ℕ
  output_tokens : Option ℕ
  request_count : ℕ
  requests_info : List FResult
  sessions_info : List SessionInfo
  text_finishin_reasons : List String
deriving DecidableEq, Repr

/-- Mirrors `GptModel.model_versions`. -/
def model_versions : List String :=
  ["gpt-4.1", "gpt-4o-mini", "gpt-4o", "gpt-4.1-mini"]

/-- Per-model prices (input, output) per one million tokens. -/
structure Pricing where
  input : ℚ
  output : ℚ
deriving DecidableEq, Repr

/-- Mirrors `GptModel.pricing_dict` (dollars per 1 million tokens); the
decimal float literals of the source are embedded as exact rationals,
which is faithful here because every arithmetic result appearing in the
claims is exactly representable in binary floating point. -/
def pricing_dict (model : String) : Option Pricing :=
  if model = "gpt-4o-mini" then some ⟨0.150, 0.6⟩
  else if model = "gpt-4.1" then some ⟨2.0, 8⟩
  else if model = "gpt-4o" then some ⟨2.5, 10⟩
  else if model = "gpt-4.1-mini" then some ⟨0.4, 1.6⟩
  else none

/-- Mirrors `GptModel.response_price`: rejects model identifiers outside
`model_versions`, otherwise divides the per-million prices by `10 ^ 6`
and charges each token kind. -/
def response_price (model : String) (input_tokens output_tokens : ℕ) :
    Except String ℚ :=
  if model ∈ model_versions then
    match pricing_dict model with
    | some p =>
        let input_price_per_token := p.input / 10 ^ 6
        let output_price_per_token := p.output / 10 ^ 6
        .ok (input_tokens * input_price_per_token
              + output_tokens * output_price_per_token)
    | none => .error "KeyError"
  else .error ("Model " ++ model ++ " not supported")

/-- Mirrors `GptModel.finish_reason_code_dict` (strings `fr_0` .. `fr_4`). -/
def finish_reason_code_dict : Fin 5 → String
  | 0 => "Success,Complete Message"
  | 1 => "Token Limit or parameter \"max_token\" exceeded,Incomplete Message"
  | 2 => "The model decided to call a function,Incomplete Message"
  | 3 => "Content flagged and stopped by model's content filter,Incomplete Message"
  | 4 => "API Response is still in progress,Incomplete Message"

/-- Mirrors `GptModel.format_input`. -/
def format_input (message : String) : Msg := ⟨"user", message⟩

/-- Mirrors `GptModel.format_output`. -/
def format_output (message : String) : Msg := ⟨"assistant", message⟩

/-- Mirrors the attribute initialisation at the end of `GptModel.__init__`
(the credential lookup and the `version ∈ model_versions` validation are
environment concerns that no claim depends on). -/
def initState (version system_msg : String) (max_context : ℕ) : GptState :=
  let sys : Msg := ⟨"system", system_msg⟩
  { model := version
    sys_msg := sys
    window_token_limit := max_context
    messages := [sys]
    outputs := []
    inputs := []
    total_price := 0
    total_tokens := none
    input_tokens := none
    output_tokens := none
    request_count := 0
    requests_info := []
    sessions_info := []
    text_finishin_reasons := [] }

/-- State after the first two statements of `GptModel.request` /
`GptModel.stream_request`: `self.inputs.append(prompt)` and
`self.messages.append(format_input(prompt))`. -/
def userAppended (st : GptState) (prompt : String) : GptState :=
  { st with inputs := st.inputs ++ [prompt]
            messages := st.messages ++ [format_input prompt] }

/-- Outcome of the Python guard
`if self.request_count > 0 and self.total_tokens >= wtl`.  `and`
short-circuits, so `total_tokens = None` is only compared (raising a
`TypeError`) when `request_count > 0`. -/
def guardResult (rc : ℕ) (tt : Option ℕ) (wtl : ℕ) : Except String Bool :=
  if rc > 0 then
    match tt with
    | none => .error "TypeError: '>=' not supported between NoneType and int"
    | some t => .ok (decide (wtl ≤ t))
  else .ok false

/-- Return value / escaped exception of `GptModel.request`. -/
inductive ReqOutcome where
  | ok (prompt response : String)
  | err (msg : String)
deriving DecidableEq, Repr

/-- Success path of the `try` block of `GptModel.request`: the provider
call plus `process_output` succeeded with `f`; every listed mutation of
the source runs, then `{'prompt': .., 'response': ..}` is returned. -/
def requestTry (st1 : GptState) (prompt : String)
    (res : Except String FResult) : GptState × ReqOutcome :=
  match res with
  | .error e => (st1, .err ("Error Requesting : " ++ e))
  | .ok f =>
      ({ st1 with
          requests_info := st1.requests_info ++ [f]
          outputs := st1.outputs ++ [f.output]
          messages := st1.messages ++ [format_output f.output]
          input_tokens := some f.prompt_tokens
          output_tokens := some f.output_tokens
          total_tokens := some f.total_tokens
          total_price := st1.total_price + f.price
          request_count := st1.request_count + 1
          text_finishin_reasons :=
            st1.text_finishin_reasons
              ++ [finish_reason_code_dict f.finish_reason] },
        .ok prompt f.output)

/-- Mirrors `GptModel.request`.  `res` is the outcome of the provider
call `client.chat.completions.create` combined with
`GptModel.process_output` (both run inside the `try`, before any state
mutation of the success path).  The returned state is the content of
`self` when the method returns or when its exception escapes. -/
def request (st : GptState) (prompt : String)
    (res : Except String FResult) : GptState × ReqOutcome :=
  let st1 := userAppended st prompt
  match guardResult st1.request_count st1.total_tokens
      st1.window_token_limit with
  | .error e => (st1, .err e)
  | .ok true => (st1, .err "Max Context Exceeded")
  | .ok false => requestTry st1 prompt res

/-- Texts yielded by the loop of `GptModel.stream_request`: each chunk's
`delta.content` (`None` coerced to `""` by `or ""`), keeping only the
non-empty ones (`if text:`). -/
def streamTexts (chunks : List (Option String)) : List String :=
  (chunks.map (fun c => c.getD "")).filter (fun t => ¬ t = "")

/-- Fold mirroring `full_output += text` over the yielded chunks. -/
def fullOutput (chunks : List (Option String)) : String :=
  (streamTexts chunks).foldl (fun acc t => acc ++ t) ""

/-- Observable outcome of a (partially) consumed `stream_request`
generator. -/
inductive StreamRes where
  | notStarted
  | pending (yielded : List String)
  | completed (yielded : List String)
  | err (msg : String)
deriving DecidableEq, Repr

/-- Mirrors `GptModel.stream_request` together with Python generator
semantics.  The generator body only starts running at the first `next()`
call; `steps` is the number of `next()` calls the caller performs before
abandoning the generator.  With `m` non-empty chunks, call `k ≤ m`
returns the `k`-th text; call `m + 1` runs the commit code after the
loop and raises `StopIteration` (a `for` loop over the generator always
reaches it).  `outcome` is the result of creating the provider stream
and iterating it; on a provider error the wrapped exception escapes at
the first `next()` call, after the user turn was appended. -/
def stream_request (st : GptState) (prompt : String)
    (outcome : Except String (List (Option String))) (steps : ℕ) :
    GptState × StreamRes :=
  if steps = 0 then (st, .notStarted)
  else
    let st1 := userAppended st prompt
    match outcome with
    | .error e => (st1, .err ("Error during streaming request: " ++ e))
    | .ok chunks =>
        let texts := streamTexts chunks
        if steps ≤ texts.length then (st1, .pending (texts.take steps))
        else
          let full := fullOutput chunks
          ({ st1 with
              outputs := st1.outputs ++ [full]
              messages := st1.messages ++ [format_output full]
              request_count := st1.request_count + 1 },
            .completed texts)

/-- The dict built at the top of `GptModel.new_session`. -/
def session_info_of (st : GptState) : SessionInfo :=
  { total_tokens := st.total_tokens
    total_price := st.total_price
    inputs := st.inputs
    outputs := st.outputs
    requests_info := st.requests_info
    input_tokens := st.input_tokens
    output_tokens := st.output_tokens
    request_count := st.request_count }

/-- Mirrors `GptModel.new_session`: archive the current statistics, then
re-assign each listed attribute to its initial value.  The source
rebinds `self.inputs`, `self.outputs`, ... to fresh lists, so (as the
embedding makes structural) the archived entry can no longer be reached
from the live state.  `text_finishin_reasons` is absent from the reset
list in the source and is left untouched. -/
def new_session (st : GptState) : GptState :=
  { st with
      sessions_info := st.sessions_info ++ [session_info_of st]
      messages := [st.sys_msg]
      outputs := []
      inputs := []
      total_price := 0
      total_tokens := none
      input_tokens := none
      request_count := 0
      output_tokens := none
      requests_info := [] }

/-- Sum of the per-request prices recorded in `requests_info`. -/
def sumPrices (l : List FResult) : ℚ := (l.map FResult.price).sum

/-- Sum of the per-request total-token counts recorded in
`requests_info`. -/
def sumTotalTokens (l : List FResult) : ℕ := (l.map FResult.total_tokens).sum

/-- Sample provider result with 5 total tokens. -/
def fA : FResult := ⟨"reply-A", 2, 3, 5, 0, 1⟩

/-- Sample provider result with 7 total tokens. -/
def fB : FResult := ⟨"reply-B", 3, 4, 7, 0, 2⟩

/-- Fresh engine with the default system message and default ceiling. -/
def st0 : GptState := initState "gpt-4o-mini" "You are a helpful assistant." 100000

/-- Reachable exhausted state: fresh engine with ceiling 10, then one
successful request whose usage reports 10 total tokens. -/
def stEx : GptState :=
  (request (initState "gpt-4o-mini" "s" 10) "a" (.ok ⟨"r", 4, 6, 10, 0, 1⟩)).1

/-- Reachable state after two successful requests (5 then 7 total
tokens). -/
def stTwo : GptState :=
  (request (request st0 "a" (.ok fA)).1 "b" (.ok fB)).1

end GptWrapper

namespace GptRouter

/-- Pydantic model `BreakdownResponse` of `models/BreakdownResponse.py`;
`FocusInfo` and the token entries are opaque to every claim and are
embedded as plain strings. -/
structure BreakdownResponse where
  sentence : String
  focus : Option String
  tokens : List String
  gpt_explanation : String
deriving DecidableEq, Repr

/-- Mirrors the sanitisation step of the `breakdown` route in
`routers/gpt_router.py`: the regular expression substitution
`re.sub(r"[（）]", "", req.sentence)` deletes exactly the fullwidth
parenthesis characters U+FF08 and U+FF09 and nothing else. -/
def clean_re (s : String) : String :=
  String.mk (s.data.filter (fun c => ¬ (c = '（' ∨ c = '）')))

/-- Outcome of the `breakdown` route: either a response body or an
`HTTPException(status_code, detail)`. -/
inductive RouteRes where
  | ok (body : BreakdownResponse)
  | httpError (status : ℕ) (detail : String)
deriving DecidableEq, Repr

/-- Mirrors the `breakdown` route of `routers/gpt_router.py`.  `explain`
stands for `breakdown_service.explain`, an external call that either
returns a response or raises.  Besides the route's outcome, the second
component records the inputs passed to `explain`, in call order (the
instrumentation used to state the retry-count claims). -/
def breakdown (explain : String → Option String → Except String BreakdownResponse)
    (sentence : String) (focus : Option String) :
    RouteRes × List String :=
  match explain sentence focus with
  | .ok r => (.ok r, [sentence])
  | .error _ =>
      let cleaned := clean_re sentence
      match explain cleaned focus with
      | .ok r => (.ok { r with sentence := sentence }, [sentence, cleaned])
      | .error e2 => (.httpError 500 e2, [sentence, cleaned])

/-- Explanation backend that fails on any input containing a corner
bracket `「` and succeeds on anything else, echoing its input in the
`sentence` field. -/
def cornerBracketChokes : String → Option String → Except String BreakdownResponse :=
  fun s _ =>
    if s.data.contains '「' then .error "explain failed"
    else .ok ⟨s, none, [], "explanation"⟩

/-- Explanation backend that fails on any input containing a fullwidth
parenthesis `（` and succeeds on anything else, echoing its input in
the `sentence` field. -/
def parenChokes : String → Option String → Except String BreakdownResponse :=
  fun s _ =>
    if s.data.contains '（' then .error "explain failed"
    else .ok ⟨s, none, [], "explanation"⟩

end GptRouter

namespace AudioProc

/-- Mirrors `subprocess.CompletedProcess` as observed through
`AudioTools.run_command`: with `text=True` the captured streams are
strings (`none` when not captured). -/
structure CompletedProcess where
  returncode : ℤ
  stdout : Option String
  stderr : Option String
deriving DecidableEq, Repr

/-- How a call to `AudioTools.run_command` ends: a normal return (of the
completed process, or of Python `None`) or an escaping exception. -/
inductive RunOutcome where
  | ret (r : Option CompletedProcess)
  | exc (msg : String)
deriving DecidableEq, Repr

/-- Python `str.decode`: the method does not exist on `str` (it belongs
to `bytes`), so the attribute access always raises `AttributeError`.
`run_command` runs every subprocess with `text=True`, hence
`e.stderr` on a `CalledProcessError` is a `str` and
`e.stderr.decode()` always takes this path. -/
def str_decode (_s : String) : Except String String :=
  .error "AttributeError: 'str' object has no attribute 'decode'"

/-- Mirrors `AudioTools.run_command`.  `sp` is the completed subprocess
(exit code and captured streams); `now` is the formatted
`datetime.now()` timestamp.  `subprocess.run` raises
`CalledProcessError` only when `check` is true and the exit code is
non-zero; the handler then writes the error-log file only on the
`capture_output` branch, and first calls `e.stderr.decode()`.  The
second component is the content written to `error_log.txt` (`none` when
the file is not written). -/
def run_command (sp : CompletedProcess)
    (capture_output check _hide : Bool) (now : String) :
    RunOutcome × Option String :=
  if check = true ∧ sp.returncode ≠ 0 then
    if capture_output then
      match str_decode ((sp.stderr).getD "") with
      | .error e => (.exc e, none)
      | .ok msg =>
          (.ret none, some (now ++ " FFmpeg error:\n" ++ msg ++ "\n\n"))
    else (.ret none, none)
  else (.ret (some sp), none)

/-- Mirrors the audio extension set of `AudioTools.extract_audio`. -/
def audio_exts : List String := [".wav", ".mp3", ".m4a", ".flac", ".aac"]

/-- Mirrors `pathlib.PurePath.suffix` on the inputs arising here: the
final dot-suffix of the last path component, empty when the name has no
dot, only a leading dot, or a trailing dot. -/
def suffixOf (p : String) : String :=
  let n := (p.data.reverse.takeWhile (fun c => ¬ c = '/')).reverse
  let ext := n.reverse.takeWhile (fun c => ¬ c = '.')
  if ext.length = n.length then ""
  else if ext.length + 1 = n.length then ""
  else if ext = [] then ""
  else String.mk ('.' :: ext.reverse)

/-- Mirrors `Path.with_suffix(".wav")` on the inputs arising here:
drop the current suffix and append `.wav`. -/
def with_suffix_wav (p : String) : String :=
  String.mk
    (p.data.take (p.data.length - (suffixOf p).data.length) ++ ".wav".data)

/-- Mirrors `AudioTools.extract_audio`: audio extensions pass through
without a subprocess call; otherwise ffmpeg is invoked through
`run_command(cmd, hide_and_log=True)` — that is, with `capture_output`
and `check` left at their `False` defaults — and the `.wav` output path
is returned unconditionally.  The first component is the returned path,
the second the `run_command` result when ffmpeg was invoked. -/
def extract_audio (sp : CompletedProcess) (now input_path : String) :
    String × Option (RunOutcome × Option String) :=
  if suffixOf input_path ∈ audio_exts then (input_path, none)
  else
    let out := with_suffix_wav input_path
    (out, some (run_command sp false false true now))

end AudioProc

namespace Srt

/-- Subtitle cue data as consumed by `generate_srt` of
`utils/srt_utils.py`: one entry of `result["segments"]` with its
`start` / `end` seconds (Python floats, embedded as exact rationals)
and its raw text. -/
structure Segment where
  start : ℚ
  «end» : ℚ
  text : String
deriving DecidableEq, Repr

/-- Unicode whitespace as stripped by Python `str.strip()` (the
characters for which `str.isspace()` holds). -/
def pyIsSpace (c : Char) : Bool :=
  let n := c.toNat
  (9 ≤ n && n ≤ 13) || (28 ≤ n && n ≤ 32) || n == 133 || n == 160 ||
    n == 5760 || (8192 ≤ n && n ≤ 8202) || n == 8232 || n == 8233 ||
    n == 8239 || n == 8287 || n == 12288

/-- Mirrors Python `str.strip()` on the character list: drop leading and
trailing whitespace. -/
def stripData (l : List Char) : List Char :=
  ((l.dropWhile pyIsSpace).reverse.dropWhile pyIsSpace).reverse

/-- Decimal digit characters of `n`, most significant first (the
decimal rendering used by Python string formatting). -/
def natDigits (n : ℕ) : List Char :=
  ((Nat.digits 10 n).map Nat.digitChar).reverse

/-- Decimal rendering of `n`, with `0` rendered as `"0"`. -/
def natRepr (n : ℕ) : List Char :=
  if n = 0 then ['0'] else natDigits n

/-- Mirrors Python zero-padded formatting of a natural number to a
minimum width `w` (more digits are kept when they do not fit). -/
def padNat (w : ℕ) (n : ℕ) : List Char :=
  List.replicate (w - (natRepr n).length) '0' ++ natRepr n

/-- Mirrors Python zero-padded width-`w` formatting of an integer: the
sign counts towards the width and the zeros come after it. -/
def padI (w : ℕ) (z : ℤ) : List Char :=
  if z < 0 then '-' :: padNat (w - 1) z.natAbs else padNat w z.toNat

/-- Mirrors `format_time` of `utils/srt_utils.py`:
`divmod(seconds, 3600)`, `divmod(rem, 60)`, millisecond truncation and
`HH:MM:SS,mmm` rendering.  Python `divmod` floors; the `int(...)` casts
are applied to the already-integral quotients and to the nonnegative
remainders, where truncation coincides with the floor. -/
def format_time (seconds : ℚ) : List Char :=
  let hours : ℤ := ⌊seconds / 3600⌋
  let rem : ℚ := seconds - 3600 * hours
  let minutes : ℤ := ⌊rem / 60⌋
  let secs : ℚ := rem - 60 * minutes
  let isecs : ℤ := ⌊secs⌋
  let ms : ℤ := ⌊(secs - isecs) * 1000⌋
  padI 2 hours ++ ':' :: padI 2 minutes ++ ':' :: padI 2 isecs
    ++ ',' :: padI 3 ms

/-- The `f"{start} --> {end}"` timestamp line of one cue. -/
def timeLine (a b : ℚ) : List Char :=
  format_time a ++ ' ' :: '-' :: '-' :: '>' :: ' ' :: format_time b

/-- One entry of `srt_lines` in `generate_srt`:
`f"{i}\n{start} --> {end}\n{text}\n"` with the text stripped. -/
def srtBlock (i : ℕ) (seg : Segment) : List Char :=
  natRepr i ++ '\n' :: timeLine seg.start seg.«end»
    ++ '\n' :: stripData seg.text.data ++ ['\n']

/-- The blocks of `generate_srt` for `enumerate(segments, start=i)`. -/
def srtBlocks (i : ℕ) : List Segment → List (List Char)
  | [] => []
  | seg :: rest => srtBlock i seg :: srtBlocks (i + 1) rest

/-- Mirrors `"\n".join(...)`. -/
def joinNl : List (List Char) → List Char
  | [] => []
  | [b] => b
  | b :: b2 :: rest => b ++ '\n' :: joinNl (b2 :: rest)

/-- The `srt_content` string written by `generate_srt` of
`utils/srt_utils.py` (the function then writes it to `srt_path` and
returns the path; the claim concerns the serialized content). -/
def generate_srt_content (segs : List Segment) : String :=
  String.mk (joinNl (srtBlocks 1 segs))

/-- Split a character list at every occurrence of `c` (`n` separators
yield `n + 1` pieces; the empty list yields one empty piece). -/
def splitChar (c : Char) : List Char → List (List Char)
  | [] => [[]]
  | x :: xs =>
      match splitChar c xs with
      | [] => [[]]
      | p :: ps => if x = c then [] :: p :: ps else (x :: p) :: ps

/-- Value of a decimal digit character (`none` on anything else). -/
def charVal (c : Char) : Option ℕ :=
  if '0' ≤ c ∧ c ≤ '9' then some (c.toNat - 48) else none

/-- Decimal accumulator parse of a digit string. -/
def parseNatAux (a : ℕ) : List Char → Option ℕ
  | [] => some a
  | c :: cs =>
      match charVal c with
      | some d => parseNatAux (10 * a + d) cs
      | none => none

/-- Parse a non-empty all-digit string as a natural number. -/
def parseNat (l : List Char) : Option ℕ :=
  if l = [] then none else parseNatAux 0 l

/-- Modelled from the spec: parse one `HH:MM:SS,mmm` timestamp of the
canonical subtitle text format (§6) back into seconds. -/
def parse_time (l : List Char) : Option ℚ :=
  match splitChar ':' l with
  | [hs, mins, rest] =>
      match splitChar ',' rest with
      | [ss, mss] =>
          match parseNat hs, parseNat mins, parseNat ss, parseNat mss with
          | some h, some mi, some s, some ms =>
              some ((h : ℚ) * 3600 + (mi : ℚ) * 60 + (s : ℚ)
                      + (ms : ℚ) / 1000)
          | _, _, _, _ => none
      | _ => none
  | _ => none

/-- Modelled from the spec: parse one `<start> --> <end>` timestamp-range
line of the canonical subtitle text format. -/
def parse_time_line (l : List Char) : Option (ℚ × ℚ) :=
  match splitChar ' ' l with
  | [a, arrow, b] =>
      if arrow = ['-', '-', '>'] then
        match parse_time a, parse_time b with
        | some x, some y => some (x, y)
        | _, _ => none
      else none
  | _ => none

/-- Modelled from the spec: parse the line groups of the canonical
format — per cue an index line (`1..N`, sequential, checked against
`idx`), a timestamp-range line, a text line and the blank separator
line that the serializer's per-cue trailing newline produces. -/
def parse_cues : ℕ → List (List Char) → Option (List Segment)
  | _, [] => some []
  | idx, iL :: tL :: xL :: e :: rest =>
      if e = [] then
        match parseNat iL with
        | some i =>
            if i = idx then
              match parse_time_line tL with
              | some (a, b) =>
                  match parse_cues (idx + 1) rest with
                  | some segs => some (⟨a, b, String.mk xL⟩ :: segs)
                  | none => none
              | none => none
            else none
        | none => none
      else none
  | _, _ => none

/-- Modelled from the spec: `deserialize(text) -> SubtitleDocument`, the
left inverse of the canonical serialization (§4.3, §6); the repository
has no deserializer of its own under `src/` (it consumes the external
`srt` library), so this parser of the spec's blank-line separated
`<index> / <start> --> <end> / <text>` format stands in for it. -/
def deserialize (s : String) : Option (List Segment) :=
  if s.data = [] then some [] else parse_cues 1 (splitChar '\n' s.data)

/-- Expected line decomposition of the serialized content (used by the
round-trip proof): per cue its index line, timestamp-range line,
stripped text line and the blank separator line. -/
def cueLines : ℕ → List Segment → List (List Char)
  | _, [] => []
  | i, seg :: rest =>
      natRepr i :: timeLine seg.start seg.«end»
        :: stripData seg.text.data :: [] :: cueLines (i + 1) rest

/-- A rational number of seconds lying on the millisecond grid. -/
def msPrecise (q : ℚ) : Prop := ∃ m : ℕ, q = (m : ℚ) / 1000

/-- Segments that the lossy serializer preserves exactly: times on the
millisecond grid and text that is strip-invariant and newline-free. -/
def GoodSeg (seg : Segment) : Prop :=
  msPrecise seg.start ∧ msPrecise seg.«end» ∧
    stripData seg.text.data = seg.text.data ∧ '\n' ∉ seg.text.data

end Srt

namespace GptWrapper

theorem userAppended_request_count (st : GptState) (p : String) :
    (userAppended st p).request_count = st.request_count := rfl

theorem userAppended_total_tokens (st : GptState) (p : String) :
    (userAppended st p).total_tokens = st.total_tokens := rfl

theorem userAppended_window (st : GptState) (p : String) :
    (userAppended st p).window_token_limit = st.window_token_limit := rfl

theorem guardResult_ok_false {rc wtl : ℕ} {tt : Option ℕ}
    (h : rc = 0 ∨ ∃ t, tt = some t ∧ t < wtl) :
    guardResult rc tt wtl = .ok false := by
  rcases h with rfl | ⟨t, rfl, hlt⟩
  · rfl
  · show (if rc > 0 then Except.ok (decide (wtl ≤ t))
        else Except.ok false) = Except.ok false
    by_cases hrc : rc > 0
    · rw [if_pos hrc, decide_eq_false (not_le.mpr hlt)]
    · rw [if_neg hrc]

theorem guardResult_ok_true {rc wtl t : ℕ} {tt : Option ℕ}
    (h1 : 0 < rc) (h2 : tt = some t) (h3 : wtl ≤ t) :
    guardResult rc tt wtl = .ok true := by
  subst h2
  show (if rc > 0 then Except.ok (decide (wtl ≤ t))
      else Except.ok false) = Except.ok true
  rw [if_pos h1, decide_eq_true h3]

/-- C1 (amended): a provider failure inside `request(prompt)` escapes as
a wrapped `Error Requesting : ...` error and leaves `request_count`, all
token counters, the price, `outputs`, the per-request log and the
finish-reason log unchanged — but the user turn has already been
appended, so `inputs` and `messages` each grow by the prompt. -/
theorem request_provider_failure_effect (st : GptState) (prompt e : String)
    (h : st.request_count = 0 ∨
      ∃ t, st.total_tokens = some t ∧ t < st.window_token_limit) :
    request st prompt (.error e) =
      (userAppended st prompt, .err ("Error Requesting : " ++ e)) := by
  have hg : guardResult (userAppended st prompt).request_count
      (userAppended st prompt).total_tokens
      (userAppended st prompt).window_token_limit = .ok false := by
    rw [userAppended_request_count, userAppended_total_tokens,
      userAppended_window]
    exact guardResult_ok_false h
  simp only [request, hg, requestTry]

theorem request_provider_failure_effect_witness :
    (st0.request_count = 0 ∨
      ∃ t, st0.total_tokens = some t ∧ t < st0.window_token_limit) ∧
    request st0 "hi" (.error "network down") =
      (userAppended st0 "hi", .err ("Error Requesting : " ++ "network down")) :=
  ⟨Or.inl rfl,
    request_provider_failure_effect st0 "hi" "network down" (Or.inl rfl)⟩

/-- C1 (counterexample to the claim as stated): from the fresh engine, a
provider failure during `request` does mutate the state — the prompt
remains appended to `messages` and `inputs`. -/
theorem request_provider_failure_mutates_cex :
    (request st0 "hi" (.error "network down")).1.messages ≠ st0.messages ∧
    (request st0 "hi" (.error "network down")).1.inputs ≠ st0.inputs := by
  decide

/-- C2 (amended): in the exhausted state (positive request count and
cumulative total tokens at or above the ceiling), `request` fails with
the unwrapped `Max Context Exceeded` error and mutates no counter — but
it has already appended the prompt to `inputs` and `messages`. -/
theorem request_exhausted_effect (st : GptState) (prompt : String)
    (res : Except String FResult) (t : ℕ)
    (h1 : 0 < st.request_count) (h2 : st.total_tokens = some t)
    (h3 : st.window_token_limit ≤ t) :
    request st prompt res =
      (userAppended st prompt, .err "Max Context Exceeded") := by
  have hg : guardResult (userAppended st prompt).request_count
      (userAppended st prompt).total_tokens
      (userAppended st prompt).window_token_limit = .ok true := by
    rw [userAppended_request_count, userAppended_total_tokens,
      userAppended_window]
    exact guardResult_ok_true h1 h2 h3
  simp only [request, hg]

theorem request_exhausted_effect_witness :
    (0 < stEx.request_count ∧ stEx.total_tokens = some 10 ∧
      stEx.window_token_limit ≤ 10) ∧
    request stEx "b" (.ok fA) =
      (userAppended stEx "b", .err "Max Context Exceeded") :=
  ⟨⟨by decide, by decide, by decide⟩,
    request_exhausted_effect stEx "b" (.ok fA) 10 (by decide) (by decide)
      (by decide)⟩

/-- C2 (counterexample to the claim as stated): in the reachable
exhausted state `stEx`, the rejected `request` call leaves the message
history mutated (the user turn was appended before the ceiling check). -/
theorem request_exhausted_mutates_history_cex :
    (request stEx "b" (.ok fA)).2 = .err "Max Context Exceeded" ∧
    (request stEx "b" (.ok fA)).1.messages ≠ stEx.messages := by
  decide

end GptWrapper

namespace GptWrapper

/-- C4: a `stream_request` generator that was started (at least one
chunk consumed) but abandoned before the provider stream was exhausted
leaves exactly the user turn appended — no assistant turn, no
`request_count` change; consuming it to completion appends the full
concatenated output as exactly one assistant message and increments
`request_count` exactly once. -/
theorem stream_request_commit_boundary (st : GptState) (prompt : String)
    (chunks : List (Option String)) (steps : ℕ) (h1 : 1 ≤ steps) :
    (steps ≤ (streamTexts chunks).length →
      stream_request st prompt (.ok chunks) steps =
        (userAppended st prompt,
          .pending ((streamTexts chunks).take steps))) ∧
    ((streamTexts chunks).length < steps →
      stream_request st prompt (.ok chunks) steps =
        ({ userAppended st prompt with
            outputs := (userAppended st prompt).outputs ++ [fullOutput chunks]
            messages := (userAppended st prompt).messages
              ++ [format_output (fullOutput chunks)]
            request_count := (userAppended st prompt).request_count + 1 },
          .completed (streamTexts chunks))) := by
  have hs : ¬ steps = 0 := by omega
  constructor
  · intro hle
    simp only [stream_request, if_neg hs, if_pos hle]
  · intro hgt
    have hnle : ¬ steps ≤ (streamTexts chunks).length := by omega
    simp only [stream_request, if_neg hs, if_neg hnle]

theorem stream_request_commit_boundary_witness :
    ((1 : ℕ) ≤ 1 ∧ 1 ≤ (streamTexts [some "x", none, some "yz"]).length) ∧
    stream_request st0 "p" (.ok [some "x", none, some "yz"]) 1 =
      (userAppended st0 "p",
        .pending ((streamTexts [some "x", none, some "yz"]).take 1)) :=
  ⟨⟨by decide, by decide⟩,
    (stream_request_commit_boundary st0 "p" [some "x", none, some "yz"] 1
      (by decide)).1 (by decide)⟩

/-- C5 (amended): `stream_request` performs no exhaustion check — even
from a state whose cumulative total tokens have reached the ceiling it
consumes the provider stream and, on completion, commits the assistant
turn and increments `request_count`, instead of rejecting the call. -/
theorem stream_request_ignores_exhaustion (st : GptState) (prompt : String)
    (chunks : List (Option String)) (t : ℕ)
    (_h1 : 0 < st.request_count) (_h2 : st.total_tokens = some t)
    (_h3 : st.window_token_limit ≤ t) :
    stream_request st prompt (.ok chunks) ((streamTexts chunks).length + 1) =
      ({ userAppended st prompt with
          outputs := (userAppended st prompt).outputs ++ [fullOutput chunks]
          messages := (userAppended st prompt).messages
            ++ [format_output (fullOutput chunks)]
          request_count := (userAppended st prompt).request_count + 1 },
        .completed (streamTexts chunks)) := by
  have hs : ¬ (streamTexts chunks).length + 1 = 0 := by omega
  have hnle : ¬ (streamTexts chunks).length + 1 ≤ (streamTexts chunks).length := by
    omega
  simp only [stream_request, if_neg hs, if_neg hnle]

theorem stream_request_ignores_exhaustion_witness :
    (0 < stEx.request_count ∧ stEx.total_tokens = some 10 ∧
      stEx.window_token_limit ≤ 10) ∧
    stream_request stEx "b" (.ok [some "x"]) ((streamTexts [some "x"]).length + 1) =
      ({ userAppended stEx "b" with
          outputs := (userAppended stEx "b").outputs ++ [fullOutput [some "x"]]
          messages := (userAppended stEx "b").messages
            ++ [format_output (fullOutput [some "x"])]
          request_count := (userAppended stEx "b").request_count + 1 },
        .completed (streamTexts [some "x"])) :=
  ⟨⟨by decide, by decide, by decide⟩,
    stream_request_ignores_exhaustion stEx "b" [some "x"] 10 (by decide)
      (by decide) (by decide)⟩

/-- C5 (counterexample to the claim as stated): in the reachable
exhausted state `stEx`, `stream_request` does not fail with a
context-exceeded error — it consumes the provider stream and commits. -/
theorem stream_request_exhausted_commits_cex :
    (stream_request stEx "b" (.ok [some "x"]) 2).2 = .completed ["x"] ∧
    (stream_request stEx "b" (.ok [some "x"]) 2).1.request_count =
      stEx.request_count + 1 := by
  decide

/-- C6 (amended): after a successful `request`, the per-request log has
the new record appended, the cumulative price equals the sum of the
per-request prices (assuming that invariant held before), while the
token fields `input_tokens` / `output_tokens` / `total_tokens` are
overwritten with the latest request's usage — they are not running
sums. -/
theorem request_success_accounting (st : GptState) (prompt : String)
    (f : FResult)
    (hg : st.request_count = 0 ∨
      ∃ t, st.total_tokens = some t ∧ t < st.window_token_limit)
    (hp : st.total_price = sumPrices st.requests_info) :
    (request st prompt (.ok f)).1.requests_info = st.requests_info ++ [f] ∧
    (request st prompt (.ok f)).1.total_price =
      sumPrices (request st prompt (.ok f)).1.requests_info ∧
    (request st prompt (.ok f)).1.total_tokens = some f.total_tokens ∧
    (request st prompt (.ok f)).1.input_tokens = some f.prompt_tokens ∧
    (request st prompt (.ok f)).1.output_tokens = some f.output_tokens := by
  have hg2 : guardResult st.request_count st.total_tokens
      st.window_token_limit = .ok false := guardResult_ok_false hg
  refine ⟨?_, ?_, ?_, ?_, ?_⟩ <;>
    simp only [request, userAppended, hg2, requestTry]
  show st.total_price + f.price = sumPrices (st.requests_info ++ [f])
  rw [hp]
  simp [sumPrices]

theorem request_success_accounting_witness :
    ((st0.request_count = 0 ∨
        ∃ t, st0.total_tokens = some t ∧ t < st0.window_token_limit) ∧
      st0.total_price = sumPrices st0.requests_info) ∧
    (request st0 "a" (.ok fA)).1.total_tokens = some fA.total_tokens :=
  ⟨⟨Or.inl rfl, rfl⟩,
    (request_success_accounting st0 "a" fA (Or.inl rfl) rfl).2.2.1⟩

/-- C6 (counterexample to the claim as stated): after two successful
requests reporting 5 and then 7 total tokens, the engine's
`total_tokens` holds 7 — the last request's count — not the sum 12 of
the per-request log. -/
theorem token_counters_are_last_not_sums_cex :
    stTwo.total_tokens = some 7 ∧
    sumTotalTokens stTwo.requests_info = 12 ∧
    stTwo.total_tokens ≠ some (sumTotalTokens stTwo.requests_info) := by
  decide

/-- C7 (amended): `new_session` archives the current statistics by value
into `sessions_info` and resets every owned field to its initial value
except `text_finishin_reasons`, which the source's reset list omits and
which keeps its content; the archived entry is itself immune to later
operations (a subsequent `request` leaves `sessions_info` unchanged). -/
theorem new_session_effect (st : GptState) :
    (new_session st).messages = [st.sys_msg] ∧
    (new_session st).outputs = [] ∧
    (new_session st).inputs = [] ∧
    (new_session st).total_price = 0 ∧
    (new_session st).total_tokens = none ∧
    (new_session st).input_tokens = none ∧
    (new_session st).output_tokens = none ∧
    (new_session st).request_count = 0 ∧
    (new_session st).requests_info = [] ∧
    (new_session st).sessions_info = st.sessions_info ++ [session_info_of st] ∧
    (new_session st).text_finishin_reasons = st.text_finishin_reasons ∧
    ∀ prompt res, (request (new_session st) prompt res).1.sessions_info =
      (new_session st).sessions_info := by
  refine ⟨rfl, rfl, rfl, rfl, rfl, rfl, rfl, rfl, rfl, rfl, rfl, ?_⟩
  intro prompt res
  cases res <;> rfl

/-- C7 (counterexample to the claim as stated): after one successful
request, `new_session` does not empty the finish-reason log. -/
theorem new_session_keeps_finish_reasons_cex :
    (new_session (request st0 "a" (.ok fA)).1).text_finishin_reasons ≠ [] := by
  decide

theorem response_price_ok {m : String} {p : Pricing}
    (hmem : m ∈ model_versions) (hp : pricing_dict m = some p) (i o : ℕ) :
    response_price m i o =
      .ok (i * (p.input / 10 ^ 6) + o * (p.output / 10 ^ 6)) := by
  unfold response_price
  rw [if_pos hmem, hp]

/-- C8: for every model identifier in the pricing table,
`response_price(model, 1_000_000, 0)` is exactly the model's input
price constant and `response_price(model, 0, 1_000_000)` exactly the
output price constant; every identifier outside the table fails with
the unsupported-model (configuration) error. -/
theorem response_price_spec :
    (∀ m p, pricing_dict m = some p →
      response_price m 1000000 0 = .ok p.input ∧
      response_price m 0 1000000 = .ok p.output) ∧
    (∀ m i o, pricing_dict m = none →
      response_price m i o = .error ("Model " ++ m ++ " not supported")) := by
  constructor
  · intro m p hp
    have hm : m = "gpt-4o-mini" ∨ m = "gpt-4.1" ∨ m = "gpt-4o" ∨
        m = "gpt-4.1-mini" := by
      by_contra hc
      push_neg at hc
      obtain ⟨c1, c2, c3, c4⟩ := hc
      rw [pricing_dict, if_neg c1, if_neg c2, if_neg c3, if_neg c4] at hp
      exact Option.noConfusion hp
    rcases hm with rfl | rfl | rfl | rfl <;>
      obtain rfl := (Option.some.inj hp).symm <;>
      refine ⟨?_, ?_⟩ <;>
      rw [response_price_ok (by decide) hp] <;>
      norm_num
  · intro m i o h
    have hm : ¬ m ∈ model_versions := by
      intro hmem
      fin_cases hmem <;> exact Option.noConfusion h
    unfold response_price
    rw [if_neg hm]

theorem response_price_spec_witness :
    pricing_dict "gpt-4o" = some ⟨2.5, 10⟩ ∧
    response_price "gpt-4o" 1000000 0 = .ok (2.5 : ℚ) ∧
    pricing_dict "bogus" = none ∧
    response_price "bogus" 3 4 =
      .error ("Model " ++ "bogus" ++ " not supported") :=
  ⟨rfl, (response_price_spec.1 "gpt-4o" ⟨2.5, 10⟩ rfl).1, rfl,
    response_price_spec.2 "bogus" 3 4 rfl⟩

end GptWrapper

namespace GptRouter

/-- C3 (amended): on a failed first explanation attempt the route
retries exactly once — never a second time — with the sentence
sanitised by deleting the fullwidth parentheses `（` and `）` (corner
brackets such as `「` are not touched); on retry success the returned
body carries the original sentence in its `sentence` field, and on
retry failure the route fails with an HTTP 500 error. -/
theorem breakdown_retry_policy
    (explain : String → Option String → Except String BreakdownResponse)
    (sentence : String) (focus : Option String) :
    (breakdown explain sentence focus).2.length ≤ 2 ∧
    (breakdown explain sentence focus).2.headD "" = sentence ∧
    (∀ e, explain sentence focus = .error e →
      (breakdown explain sentence focus).2 =
        [sentence, clean_re sentence]) ∧
    (∀ e r, explain sentence focus = .error e →
      explain (clean_re sentence) focus = .ok r →
      breakdown explain sentence focus =
        (.ok { r with sentence := sentence },
          [sentence, clean_re sentence])) ∧
    (∀ e e2, explain sentence focus = .error e →
      explain (clean_re sentence) focus = .error e2 →
      breakdown explain sentence focus =
        (.httpError 500 e2, [sentence, clean_re sentence])) := by
  refine ⟨?_, ?_, ?_, ?_, ?_⟩
  · cases h1 : explain sentence focus with
    | ok r => simp [breakdown, h1]
    | error e =>
        cases h2 : explain (clean_re sentence) focus <;>
          simp [breakdown, h1, h2]
  · cases h1 : explain sentence focus with
    | ok r => simp [breakdown, h1]
    | error e =>
        cases h2 : explain (clean_re sentence) focus <;>
          simp [breakdown, h1, h2]
  · intro e h1
    cases h2 : explain (clean_re sentence) focus <;>
      simp [breakdown, h1, h2]
  · intro e r h1 h2
    simp [breakdown, h1, h2]
  · intro e e2 h1 h2
    simp [breakdown, h1, h2]

theorem breakdown_retry_policy_witness :
    parenChokes "（猫）は可愛い" none = .error "explain failed" ∧
    parenChokes (clean_re "（猫）は可愛い") none =
      .ok ⟨"猫は可愛い", none, [], "explanation"⟩ ∧
    breakdown parenChokes "（猫）は可愛い" none =
      (.ok ⟨"（猫）は可愛い", none, [], "explanation"⟩,
        ["（猫）は可愛い", clean_re "（猫）は可愛い"]) :=
  ⟨by decide, by decide,
    (breakdown_retry_policy parenChokes "（猫）は可愛い" none).2.2.2.1
      "explain failed" ⟨"猫は可愛い", none, [], "explanation"⟩
      (by decide) (by decide)⟩

/-- C3 (counterexample to the claim as stated): the sanitisation removes
only fullwidth parentheses, so the spec's example sentence
`"「猫」は可愛い"` is retried completely unchanged — not as
`"猫は可愛い"` — and an explanation backend that chokes on corner
brackets therefore fails on the retry as well. -/
theorem clean_re_keeps_corner_brackets_cex :
    clean_re "「猫」は可愛い" = "「猫」は可愛い" ∧
    clean_re "「猫」は可愛い" ≠ "猫は可愛い" ∧
    (breakdown cornerBracketChokes "「猫」は可愛い" none).1 =
      .httpError 500 "explain failed" ∧
    (breakdown cornerBracketChokes "「猫」は可愛い" none).2 =
      ["「猫」は可愛い", "「猫」は可愛い"] := by
  decide

end GptRouter

namespace AudioProc

/-- C10: evaluation of the media-tool wrapper at a failing encoder
invocation.  `extract_audio` runs ffmpeg with `check=False` and
`capture_output=False`, so a non-zero exit returns the
`CompletedProcess` itself — not the `None` sentinel — writes nothing to
the error log, and `extract_audio` still returns the output `.wav`
path; and on the `check=True, capture_output=True` configuration
(`to_wav`'s), the handler crashes with an `AttributeError` from
`e.stderr.decode()` before the log file is written. -/
theorem run_command_failure_eval :
    run_command ⟨1, none, some "moov atom not found"⟩ false false true "[t]" =
      (.ret (some ⟨1, none, some "moov atom not found"⟩), none) ∧
    extract_audio ⟨1, none, some "moov atom not found"⟩ "[t]" "/tmp/clip.mp4" =
      ("/tmp/clip.wav",
        some (.ret (some ⟨1, none, some "moov atom not found"⟩), none)) ∧
    run_command ⟨1, none, some "boom"⟩ true true true "[t]" =
      (.exc "AttributeError: 'str' object has no attribute 'decode'",
        none) := by
  decide

end AudioProc

namespace Srt

theorem charVal_digitChar {d : ℕ} (h : d < 10) :
    charVal (Nat.digitChar d) = some d := by
  interval_cases d <;> decide

theorem parseNatAux_append (a : ℕ) (l1 l2 : List Char) :
    parseNatAux a (l1 ++ l2) =
      match parseNatAux a l1 with
      | some b => parseNatAux b l2
      | none => none := by
  induction l1 generalizing a with
  | nil => rfl
  | cons c cs ih =>
      cases h : charVal c with
      | none => simp only [List.cons_append, parseNatAux, h]
      | some d =>
          simp only [List.cons_append, parseNatAux, h]
          exact ih (10 * a + d)

theorem parseNatAux_single (b : ℕ) {c : Char} {d : ℕ}
    (h : charVal c = some d) : parseNatAux b [c] = some (10 * b + d) := by
  unfold parseNatAux
  rw [h]
  rfl

theorem parseNatAux_digitsRev (L : List ℕ) (a : ℕ) :
    (∀ d ∈ L, d < 10) →
    parseNatAux a ((L.map Nat.digitChar).reverse) =
      some (a * 10 ^ L.length + Nat.ofDigits 10 L) := by
  induction L generalizing a with
  | nil => intro _; simp [parseNatAux]
  | cons d L ih =>
      intro hL
      have hd : d < 10 := hL d (List.mem_cons_self d L)
      rw [List.map_cons, List.reverse_cons, parseNatAux_append,
        ih a (fun x hx => hL x (List.mem_cons_of_mem d hx))]
      show parseNatAux (a * 10 ^ L.length + Nat.ofDigits 10 L)
          [Nat.digitChar d] = _
      rw [parseNatAux_single _ (charVal_digitChar hd)]
      congr 1
      rw [Nat.ofDigits_cons, List.length_cons, pow_succ]
      ring

theorem parseNatAux_natRepr (n : ℕ) : parseNatAux 0 (natRepr n) = some n := by
  by_cases h : n = 0
  · subst h; rfl
  · unfold natRepr
    rw [if_neg h]
    unfold natDigits
    rw [parseNatAux_digitsRev _ 0
      (fun d hd => Nat.digits_lt_base (by norm_num) hd)]
    simp [Nat.ofDigits_digits]

theorem natRepr_ne_nil (n : ℕ) : natRepr n ≠ [] := by
  unfold natRepr
  split
  · simp
  · unfold natDigits
    simp_all [Nat.digits_ne_nil_iff_ne_zero]

theorem parseNatAux_zeros (k : ℕ) :
    parseNatAux 0 (List.replicate k '0') = some 0 := by
  induction k with
  | zero => rfl
  | succ k ih =>
      show parseNatAux 0 ('0' :: List.replicate k '0') = some 0
      show parseNatAux (10 * 0 + 0) (List.replicate k '0') = some 0
      simpa using ih

theorem parseNat_padNat (w n : ℕ) : parseNat (padNat w n) = some n := by
  have hne : List.replicate (w - (natRepr n).length) '0' ++ natRepr n ≠ [] := by
    simp [natRepr_ne_nil n]
  unfold parseNat padNat
  rw [if_neg hne, parseNatAux_append, parseNatAux_zeros]
  exact parseNatAux_natRepr n

theorem parseNat_natRepr (n : ℕ) : parseNat (natRepr n) = some n := by
  unfold parseNat
  rw [if_neg (natRepr_ne_nil n)]
  exact parseNatAux_natRepr n

theorem splitChar_ne_nil (c : Char) (l : List Char) : splitChar c l ≠ [] := by
  cases l with
  | nil => simp [splitChar]
  | cons x xs =>
      unfold splitChar
      cases splitChar c xs with
      | nil => simp
      | cons p ps => by_cases hx : x = c <;> simp [hx]

theorem splitChar_not_mem {c : Char} {l : List Char} (h : c ∉ l) :
    splitChar c l = [l] := by
  induction l with
  | nil => rfl
  | cons x xs ih =>
      have hx : ¬ x = c := fun he => h (by simp [he])
      have hxs : c ∉ xs := fun hm => h (List.mem_cons_of_mem x hm)
      unfold splitChar
      rw [ih hxs]
      simp [hx]

theorem splitChar_append {c : Char} {l1 : List Char} (h : c ∉ l1)
    (l2 : List Char) :
    splitChar c (l1 ++ c :: l2) = l1 :: splitChar c l2 := by
  induction l1 with
  | nil =>
      simp only [List.nil_append, splitChar]
      cases hs : splitChar c l2 with
      | nil => exact absurd hs (splitChar_ne_nil c l2)
      | cons p ps => simp
  | cons x xs ih =>
      have hx : ¬ x = c := fun he => h (by simp [he])
      have hxs : c ∉ xs := fun hm => h (List.mem_cons_of_mem x hm)
      simp only [List.cons_append, splitChar, List.append_eq]
      rw [ih hxs]
      simp [hx]

theorem mem_padNat {ch : Char} {w k : ℕ} (h : ch ∈ padNat w k) :
    ∃ d, d < 10 ∧ ch = Nat.digitChar d := by
  unfold padNat at h
  rw [List.mem_append] at h
  rcases h with h | h
  · rw [List.mem_replicate] at h
    exact ⟨0, by norm_num, h.2⟩
  · unfold natRepr at h
    split at h
    · simp at h
      exact ⟨0, by norm_num, h⟩
    · unfold natDigits at h
      rw [List.mem_reverse, List.mem_map] at h
      obtain ⟨d, hd, rfl⟩ := h
      exact ⟨d, Nat.digits_lt_base (by norm_num) hd, rfl⟩

theorem padNat_no_sep {ch : Char} {w k : ℕ} (h : ch ∈ padNat w k) :
    ¬ ch = '\n' ∧ ¬ ch = ':' ∧ ¬ ch = ',' ∧ ¬ ch = ' ' := by
  obtain ⟨d, hd, rfl⟩ := mem_padNat h
  interval_cases d <;> exact ⟨by decide, by decide, by decide, by decide⟩

theorem padI_natCast (w k : ℕ) : padI w (k : ℤ) = padNat w k := by
  unfold padI
  rw [if_neg (Int.not_lt.mpr (Int.natCast_nonneg k)), Int.toNat_natCast]

end Srt

namespace Srt

theorem format_time_eval (m : ℕ) :
    format_time ((m : ℚ) / 1000) =
      padNat 2 (m / 3600000) ++ ':' :: padNat 2 (m / 60000 % 60)
        ++ ':' :: padNat 2 (m / 1000 % 60) ++ ',' :: padNat 3 (m % 1000) := by
  have h1 : ⌊(m : ℚ) / 1000 / 3600⌋ = ((m / 3600000 : ℕ) : ℤ) := by
    rw [show (m : ℚ) / 1000 / 3600 = (m : ℚ) / 3600000 by ring]
    exact_mod_cast Rat.floor_natCast_div_natCast m 3600000
  have hm1 : (3600000 : ℚ) * ((m / 3600000 : ℕ) : ℚ)
      + ((m % 3600000 : ℕ) : ℚ) = (m : ℚ) := by
    exact_mod_cast Nat.div_add_mod m 3600000
  have e2 : (m : ℚ) / 1000 - 3600 * (((m / 3600000 : ℕ) : ℤ) : ℚ)
      = ((m % 3600000 : ℕ) : ℚ) / 1000 := by
    rw [Int.cast_natCast]
    linear_combination (-1/1000 : ℚ) * hm1
  have h2 : ⌊((m % 3600000 : ℕ) : ℚ) / 1000 / 60⌋
      = ((m / 60000 % 60 : ℕ) : ℤ) := by
    rw [show ((m % 3600000 : ℕ) : ℚ) / 1000 / 60
        = ((m % 3600000 : ℕ) : ℚ) / 60000 by ring]
    have harith : m % 3600000 / 60000 = m / 60000 % 60 := by omega
    rw [← harith]
    exact_mod_cast Rat.floor_natCast_div_natCast (m % 3600000) 60000
  have hm2 : ((m % 3600000 : ℕ) : ℚ)
      = 60000 * ((m / 60000 % 60 : ℕ) : ℚ) + ((m % 60000 : ℕ) : ℚ) := by
    exact_mod_cast
      (show m % 3600000 = 60000 * (m / 60000 % 60) + m % 60000 by omega)
  have e3 : ((m % 3600000 : ℕ) : ℚ) / 1000
      - 60 * (((m / 60000 % 60 : ℕ) : ℤ) : ℚ)
      = ((m % 60000 : ℕ) : ℚ) / 1000 := by
    rw [Int.cast_natCast]
    linear_combination (1/1000 : ℚ) * hm2
  have h3 : ⌊((m % 60000 : ℕ) : ℚ) / 1000⌋ = ((m / 1000 % 60 : ℕ) : ℤ) := by
    have harith : m % 60000 / 1000 = m / 1000 % 60 := by omega
    rw [← harith]
    exact_mod_cast Rat.floor_natCast_div_natCast (m % 60000) 1000
  have hm3 : ((m % 60000 : ℕ) : ℚ)
      = 1000 * ((m / 1000 % 60 : ℕ) : ℚ) + ((m % 1000 : ℕ) : ℚ) := by
    exact_mod_cast
      (show m % 60000 = 1000 * (m / 1000 % 60) + m % 1000 by omega)
  have e4 : (((m % 60000 : ℕ) : ℚ) / 1000 - (((m / 1000 % 60 : ℕ) : ℤ) : ℚ))
      * 1000 = ((m % 1000 : ℕ) : ℚ) := by
    rw [Int.cast_natCast]
    linear_combination hm3
  have h4 : ⌊((m % 1000 : ℕ) : ℚ)⌋ = ((m % 1000 : ℕ) : ℤ) :=
    Int.floor_natCast _
  unfold format_time
  simp only []
  rw [h1, e2, h2, e3, h3, e4, h4]
  simp only [padI_natCast]

end Srt

namespace Srt

theorem stringMk_data (s : String) : String.mk s.data = s := rfl

theorem natRepr_no_sep {ch : Char} {n : ℕ} (h : ch ∈ natRepr n) :
    ¬ ch = '\n' ∧ ¬ ch = ':' ∧ ¬ ch = ',' ∧ ¬ ch = ' ' :=
  padNat_no_sep (w := 0) (by simpa [padNat] using h)

theorem splitChar_cons_self (c : Char) (l : List Char) :
    splitChar c (c :: l) = [] :: splitChar c l := by
  simp only [splitChar]
  cases hs : splitChar c l with
  | nil => exact absurd hs (splitChar_ne_nil c l)
  | cons p ps => simp

theorem parse_time_digits (A B C D : List Char) (a b c d : ℕ)
    (hA : parseNat A = some a) (hB : parseNat B = some b)
    (hC : parseNat C = some c) (hD : parseNat D = some d)
    (hA2 : ':' ∉ A) (hB2 : ':' ∉ B)
    (hC2 : ':' ∉ C) (hC3 : ',' ∉ C) (hD2 : ':' ∉ D) (hD3 : ',' ∉ D) :
    parse_time (A ++ ':' :: B ++ ':' :: C ++ ',' :: D) =
      some ((a : ℚ) * 3600 + (b : ℚ) * 60 + (c : ℚ) + (d : ℚ) / 1000) := by
  have hCD : ':' ∉ C ++ ',' :: D := by
    simp only [List.mem_append, List.mem_cons]
    push_neg
    exact ⟨hC2, by decide, hD2⟩
  unfold parse_time
  simp only [List.append_assoc, List.cons_append]
  rw [splitChar_append hA2, splitChar_append hB2, splitChar_not_mem hCD]
  show (match splitChar ',' (C ++ ',' :: D) with
      | [ss, mss] =>
          match parseNat A, parseNat B, parseNat ss, parseNat mss with
          | some h, some mi, some s, some ms =>
              some ((h : ℚ) * 3600 + (mi : ℚ) * 60 + (s : ℚ)
                      + (ms : ℚ) / 1000)
          | _, _, _, _ => none
      | _ => none) = _
  rw [splitChar_append hC3, splitChar_not_mem hD3]
  show (match parseNat A, parseNat B, parseNat C, parseNat D with
      | some h, some mi, some s, some ms =>
          some ((h : ℚ) * 3600 + (mi : ℚ) * 60 + (s : ℚ) + (ms : ℚ) / 1000)
      | _, _, _, _ => none) = _
  rw [hA, hB, hC, hD]

theorem parse_time_format (m : ℕ) :
    parse_time (format_time ((m : ℚ) / 1000)) = some ((m : ℚ) / 1000) := by
  rw [format_time_eval]
  rw [parse_time_digits _ _ _ _ (m / 3600000) (m / 60000 % 60) (m / 1000 % 60)
    (m % 1000) (parseNat_padNat 2 _) (parseNat_padNat 2 _)
    (parseNat_padNat 2 _) (parseNat_padNat 3 _)
    (fun hm => (padNat_no_sep hm).2.1 rfl)
    (fun hm => (padNat_no_sep hm).2.1 rfl)
    (fun hm => (padNat_no_sep hm).2.1 rfl)
    (fun hm => (padNat_no_sep hm).2.2.1 rfl)
    (fun hm => (padNat_no_sep hm).2.1 rfl)
    (fun hm => (padNat_no_sep hm).2.2.1 rfl)]
  congr 1
  have harith : 1000 * (3600 * (m / 3600000) + 60 * (m / 60000 % 60)
      + m / 1000 % 60) + m % 1000 = m := by omega
  have hc : (1000 : ℚ) * (3600 * ((m / 3600000 : ℕ) : ℚ)
      + 60 * ((m / 60000 % 60 : ℕ) : ℚ) + ((m / 1000 % 60 : ℕ) : ℚ))
      + ((m % 1000 : ℕ) : ℚ) = (m : ℚ) := by
    exact_mod_cast harith
  linear_combination (1/1000 : ℚ) * hc

theorem format_time_ms_no_nl_sp {ch : Char} {m : ℕ}
    (h : ch ∈ format_time ((m : ℚ) / 1000)) : ¬ ch = '\n' ∧ ¬ ch = ' ' := by
  rw [format_time_eval] at h
  simp only [List.mem_append, List.mem_cons, or_assoc] at h
  rcases h with h | rfl | h | rfl | h | rfl | h
  · exact ⟨(padNat_no_sep h).1, (padNat_no_sep h).2.2.2⟩
  · exact ⟨by decide, by decide⟩
  · exact ⟨(padNat_no_sep h).1, (padNat_no_sep h).2.2.2⟩
  · exact ⟨by decide, by decide⟩
  · exact ⟨(padNat_no_sep h).1, (padNat_no_sep h).2.2.2⟩
  · exact ⟨by decide, by decide⟩
  · exact ⟨(padNat_no_sep h).1, (padNat_no_sep h).2.2.2⟩

theorem parse_time_line_format (mA mB : ℕ) :
    parse_time_line (timeLine ((mA : ℚ) / 1000) ((mB : ℚ) / 1000)) =
      some ((mA : ℚ) / 1000, (mB : ℚ) / 1000) := by
  have hA : ' ' ∉ format_time ((mA : ℚ) / 1000) :=
    fun hm => (format_time_ms_no_nl_sp hm).2 rfl
  have hB : ' ' ∉ format_time ((mB : ℚ) / 1000) :=
    fun hm => (format_time_ms_no_nl_sp hm).2 rfl
  unfold timeLine parse_time_line
  rw [show ('-' :: '-' :: '>' :: ' ' :: format_time ((mB : ℚ) / 1000))
      = ['-', '-', '>'] ++ ' ' :: format_time ((mB : ℚ) / 1000) from rfl]
  rw [splitChar_append hA,
    splitChar_append (show ' ' ∉ (['-', '-', '>'] : List Char) from by decide),
    splitChar_not_mem hB]
  show (if (['-', '-', '>'] : List Char) = ['-', '-', '>'] then
      match parse_time (format_time ((mA : ℚ) / 1000)),
          parse_time (format_time ((mB : ℚ) / 1000)) with
      | some x, some y => some (x, y)
      | _, _ => none
    else none) = _
  rw [if_pos rfl, parse_time_format, parse_time_format]

end Srt

namespace Srt

theorem data_stringMk (l : List Char) : (String.mk l).data = l := rfl

theorem timeLine_no_nl {a b : ℚ} (ha : msPrecise a) (hb : msPrecise b) :
    '\n' ∉ timeLine a b := by
  obtain ⟨mA, rfl⟩ := ha
  obtain ⟨mB, rfl⟩ := hb
  intro hmem
  unfold timeLine at hmem
  simp only [List.mem_append, List.mem_cons, or_assoc] at hmem
  rcases hmem with hm | hm | hm | hm | hm | hm | hm
  · exact (format_time_ms_no_nl_sp hm).1 rfl
  · exact absurd hm (by decide)
  · exact absurd hm (by decide)
  · exact absurd hm (by decide)
  · exact absurd hm (by decide)
  · exact absurd hm (by decide)
  · exact (format_time_ms_no_nl_sp hm).1 rfl

theorem srtBlock_ne_nil (i : ℕ) (seg : Segment) : srtBlock i seg ≠ [] := by
  unfold srtBlock
  simp

theorem joinNl_srtBlocks_ne_nil (i : ℕ) (seg : Segment)
    (rest : List Segment) : joinNl (srtBlocks i (seg :: rest)) ≠ [] := by
  cases rest with
  | nil => exact srtBlock_ne_nil i seg
  | cons s2 r2 =>
      show srtBlock i seg ++ '\n' :: joinNl (srtBlocks (i + 1) (s2 :: r2)) ≠ []
      simp

theorem splitChar_srtBlock_cons (i : ℕ) (seg : Segment) (Y : List Char)
    (hs : msPrecise seg.start) (he : msPrecise seg.«end»)
    (ht : '\n' ∉ stripData seg.text.data) :
    splitChar '\n' (srtBlock i seg ++ '\n' :: Y) =
      natRepr i :: timeLine seg.start seg.«end» :: stripData seg.text.data
        :: [] :: splitChar '\n' Y := by
  have hnr : '\n' ∉ natRepr i := fun hm => (natRepr_no_sep hm).1 rfl
  have htl := timeLine_no_nl hs he
  unfold srtBlock
  simp only [List.append_assoc, List.cons_append, List.singleton_append,
    List.nil_append]
  rw [splitChar_append hnr, splitChar_append htl, splitChar_append ht,
    splitChar_cons_self]

theorem splitChar_srtBlock_last (i : ℕ) (seg : Segment)
    (hs : msPrecise seg.start) (he : msPrecise seg.«end»)
    (ht : '\n' ∉ stripData seg.text.data) :
    splitChar '\n' (srtBlock i seg) =
      [natRepr i, timeLine seg.start seg.«end», stripData seg.text.data,
        []] := by
  have hnr : '\n' ∉ natRepr i := fun hm => (natRepr_no_sep hm).1 rfl
  have htl := timeLine_no_nl hs he
  unfold srtBlock
  simp only [List.append_assoc, List.cons_append]
  rw [splitChar_append hnr, splitChar_append htl, splitChar_append ht]
  rfl

theorem splitChar_joinNl (segs : List Segment) (i : ℕ) :
    (∀ seg ∈ segs, msPrecise seg.start ∧ msPrecise seg.«end» ∧
      '\n' ∉ stripData seg.text.data) → segs ≠ [] →
    splitChar '\n' (joinNl (srtBlocks i segs)) = cueLines i segs := by
  induction segs generalizing i with
  | nil => intro _ hne; exact absurd rfl hne
  | cons seg rest ih =>
      intro h _
      obtain ⟨hs, he, ht⟩ := h seg (List.mem_cons_self seg rest)
      cases rest with
      | nil =>
          show splitChar '\n' (srtBlock i seg) = _
          rw [splitChar_srtBlock_last i seg hs he ht]
          rfl
      | cons s2 r2 =>
          show splitChar '\n'
              (srtBlock i seg ++ '\n' :: joinNl (srtBlocks (i + 1) (s2 :: r2)))
            = _
          rw [splitChar_srtBlock_cons i seg _ hs he ht,
            ih (i + 1) (fun s hs2 => h s (List.mem_cons_of_mem seg hs2))
              (by simp)]
          rfl

theorem parse_cues_cueLines (segs : List Segment) (i : ℕ) :
    (∀ seg ∈ segs, GoodSeg seg) →
    parse_cues i (cueLines i segs) = some segs := by
  induction segs generalizing i with
  | nil => intro _; rfl
  | cons seg rest ih =>
      intro h
      obtain ⟨⟨mA, hA⟩, ⟨mB, hB⟩, htext, _⟩ :=
        h seg (List.mem_cons_self seg rest)
      have h1 : parseNat (natRepr i) = some i := parseNat_natRepr i
      have h2 : parse_time_line (timeLine seg.start seg.«end»)
          = some (seg.start, seg.«end») := by
        rw [hA, hB]
        exact parse_time_line_format mA mB
      have h3 := ih (i + 1) (fun s hs2 => h s (List.mem_cons_of_mem seg hs2))
      show parse_cues i (natRepr i :: timeLine seg.start seg.«end»
          :: stripData seg.text.data :: [] :: cueLines (i + 1) rest) = _
      simp [parse_cues, h1, h2, h3, htext, stringMk_data]

end Srt

namespace Srt

/-- C9 (amended): with `deserialize` modelled from the spec's canonical
format, `deserialize (serialize doc) = doc` holds exactly for documents
whose cue times lie on the millisecond grid and whose texts are
strip-invariant and newline-free; in general the serializer is lossy
(it truncates times to whole milliseconds and strips surrounding
whitespace from the text), so the unrestricted round-trip law fails —
see the counterexample. -/
theorem deserialize_serialize_roundtrip (segs : List Segment)
    (h : ∀ seg ∈ segs, GoodSeg seg) :
    deserialize (generate_srt_content segs) = some segs := by
  cases segs with
  | nil => rfl
  | cons seg rest =>
      have hlines := splitChar_joinNl (seg :: rest) 1
        (fun s hs2 => by
          obtain ⟨hms1, hms2, htext, hnl⟩ := h s hs2
          refine ⟨hms1, hms2, ?_⟩
          rw [htext]
          exact hnl)
        (by simp)
      simp only [deserialize, generate_srt_content, data_stringMk]
      rw [if_neg (joinNl_srtBlocks_ne_nil 1 seg rest), hlines]
      exact parse_cues_cueLines (seg :: rest) 1 h

theorem deserialize_serialize_roundtrip_witness :
    (∀ seg ∈ [(⟨(1234 : ℚ) / 1000, (2500 : ℚ) / 1000, "hello"⟩ : Segment)],
      GoodSeg seg) ∧
    deserialize (generate_srt_content
        [⟨(1234 : ℚ) / 1000, (2500 : ℚ) / 1000, "hello"⟩]) =
      some [⟨(1234 : ℚ) / 1000, (2500 : ℚ) / 1000, "hello"⟩] := by
  have hg : ∀ seg ∈ [(⟨(1234 : ℚ) / 1000, (2500 : ℚ) / 1000,
      "hello"⟩ : Segment)], GoodSeg seg := by
    intro seg hs
    rw [List.mem_singleton] at hs
    subst hs
    exact ⟨⟨1234, by norm_num⟩, ⟨2500, by norm_num⟩, by decide, by decide⟩
  exact ⟨hg, deserialize_serialize_roundtrip _ hg⟩

end Srt

namespace Srt

/-- C9 (counterexample to the claim as stated): the document with one
cue from 0s to 1s whose text is `" a"` — typical speech-model output
with its leading space — serializes to
`"1\n00:00:00,000 --> 00:00:01,000\na\n"` (the text stripped), and
deserializing that yields text `"a"`, not `" a"`: the round-trip law
fails on assembler-producible documents. -/
theorem serialize_not_invertible_cex :
    deserialize (generate_srt_content [⟨0, 1, " a"⟩]) ≠
      some [⟨0, 1, " a"⟩] := by
  have hd1 : Nat.digits 10 1 = [1] := by
    rw [Nat.digits_def' (by norm_num : (1 : ℕ) < 10) (by norm_num : 0 < 1)]
    norm_num
  have hr1 : natRepr 1 = ['1'] := by
    unfold natRepr
    rw [if_neg (by decide : ¬ (1 : ℕ) = 0)]
    unfold natDigits
    rw [hd1]
    decide
  have hp21 : padNat 2 1 = ['0', '1'] := by
    unfold padNat
    rw [hr1]
    decide
  have e0 : format_time (0 : ℚ) =
      ('0' :: '0' :: ':' :: '0' :: '0' :: ':' :: '0' :: '0' :: ','
        :: '0' :: '0' :: '0' :: []) := by
    have h := format_time_eval 0
    norm_num at h
    rw [h]
    decide
  have e1 : format_time (1 : ℚ) =
      ('0' :: '0' :: ':' :: '0' :: '0' :: ':' :: '0' :: '1' :: ','
        :: '0' :: '0' :: '0' :: []) := by
    have h := format_time_eval 1000
    norm_num at h
    rw [h, hp21]
    decide
  have hc : generate_srt_content [⟨0, 1, " a"⟩] =
      "1\n00:00:00,000 --> 00:00:01,000\na\n" := by
    simp only [generate_srt_content, joinNl, srtBlocks, srtBlock, timeLine,
      e0, e1, hr1]
    decide
  rw [hc]
  intro hEq
  have h2 := congrArg (Option.map (List.map Segment.text)) hEq
  have h3 : (deserialize "1\n00:00:00,000 --> 00:00:01,000\na\n").map
      (List.map Segment.text) = some ["a"] := by decide
  rw [h3] at h2
  exact absurd h2 (by decide)

end Srt
